import Mathlib

/-!
# Verification of the round-up accumulation pipeline

A shallow embedding of the round-up accumulation pipeline of the
coffee-change repository:

* `src/lib/services/roundup-calculator.ts` — `RoundupCalculator`
  (`calculateRoundup`, `getTokenPrice`, `processTransaction`, `storeRoundup`,
  `processAndStoreTransactions`, `getRoundups`, `getTotalRoundup`,
  `isReadyForInvestment`);
* `src/lib/services/helius-service.ts` — `HeliusService`
  (`parseTransaction`, `fetchOutgoingTransactions`, `getMostRecentTransaction`);
* `src/lib/services/baseline-tracker.ts` — `BaselineTracker`
  (`getWalletTracking`, `setBaseline`, `updateLastTracked`);
* the `POST /api/roundups/track` route handler;
* the `POST /api/wallet/init` route handler.

Modelling conventions:

* USD amounts and token quantities are `Rat` (the spec's decimal semantics);
  JavaScript's `toFixed(2)`/`parseFloat` round-tripping is modelled as exact
  decimal rounding to two places (`round2`).
* The Supabase tables are modelled as in-memory lists:
  `roundup_records` as a `List RoundupRecord` (append-only, with the unique
  constraint on `transaction_id` enforced by the modelled insert), and
  `wallet_tracking` as an association list from wallet address to the
  nullable `last_tracked_tx` column.
* Database failures are injected explicitly: `insertFault` marks transaction
  ids whose insert raises a non-duplicate persistence error, and `readFault`
  makes the `roundup_records` select fail.
* The Helius transfer feed is modelled as the full upstream list of enhanced
  transactions, newest first; `fetchTransactions(address, limit, before)` is
  slicing of that list.  The pagination loop of `fetchOutgoingTransactions`
  recurses on an explicit fuel; each iteration consumes at least one feed
  element, so fuel `feed.length` is always sufficient.
* The price oracle is an environment field; a zero price means
  "price unavailable or oracle failure" exactly as in the source, where every
  oracle failure path returns `0`.
* Database rows' `id` and `created_at` columns are omitted: they are
  DB-assigned and never read by the modelled logic.
-/

/-- A native SOL movement inside a Helius enhanced transaction
(`nativeTransfers` array entries); `amount` is in lamports. -/
structure NativeTransfer where
  fromUserAccount : String
  toUserAccount : String
  amount : Int
deriving DecidableEq, Repr

/-- A token movement inside a Helius enhanced transaction
(`tokenTransfers` array entries). -/
structure TokenTransfer where
  fromUserAccount : String
  toUserAccount : String
  tokenAmount : Rat
  mint : String
deriving DecidableEq, Repr

/-- A Helius enhanced transaction (the fields read by the pipeline). -/
structure HeliusTransaction where
  signature : String
  slot : Int
  timestamp : Int
  fee : Int
  nativeTransfers : List NativeTransfer
  tokenTransfers : List TokenTransfer
deriving DecidableEq, Repr

/-- The `'sent' | 'received' | 'unknown'` classification of a parsed transaction. -/
inductive TxType where
  | sent
  | received
  | unknown
deriving DecidableEq, Repr

/-- `ParsedHeliusTransaction` from `helius-service.ts`. -/
structure ParsedHeliusTransaction where
  signature : String
  timestamp : Int
  slot : Int
  fee : Rat
  type : TxType
  amount : Rat
  token : String
  tokenMint : Option String
  tokenDecimals : Nat
  fromAddress : String
  toAddress : String
deriving DecidableEq, Repr

/-- USDC mint addresses recognised by `parseTransaction` (mainnet and devnet). -/
def usdcMints : List String :=
  ["EPjFWdd5AufqSSqeM2qN1xzybapC8G4wEGGkZwyTDt1v",
   "4zMMC9srt5Ri5X14GAgXhaHii3GnPAEERYPJgZJDncDU"]

/-- USDT mint address recognised by `parseTransaction`. -/
def usdtMint : String := "Es9vMFrzaCERmJfrF4H2FYD4KCoNkY11McCe8BenwNYB"

/-- `HeliusService.parseTransaction`: extracts outgoing transaction details.
The source initialises `type = 'unknown'`, `token = 'SOL'`, `tokenMint = null`,
`tokenDecimals = 9`, then inspects `nativeTransfers[0]` and `tokenTransfers[0]`
in that order (the token block overriding the native one), and finally
returns `null` unless the resulting type is `'sent'`. -/
def parseTransaction (tx : HeliusTransaction) (walletAddress : String) :
    Option ParsedHeliusTransaction :=
  -- native SOL transfer block
  let st₁ : TxType × Rat × String × String :=
    match tx.nativeTransfers with
    | [] => (.unknown, 0, "", "")
    | transfer :: _ =>
      let t : TxType :=
        if transfer.fromUserAccount = walletAddress then .sent
        else if transfer.toUserAccount = walletAddress then .received
        else .unknown
      (t, (transfer.amount : Rat) / 1000000000,
       transfer.fromUserAccount, transfer.toUserAccount)
  -- token transfer block
  let st₂ : TxType × Rat × String × Option String × Nat × String × String :=
    match tx.tokenTransfers with
    | [] => (st₁.1, st₁.2.1, "SOL", none, 9, st₁.2.2.1, st₁.2.2.2)
    | transfer :: _ =>
      let tokDec : String × Nat :=
        if transfer.mint ∈ usdcMints then ("USDC", 6)
        else if transfer.mint = usdtMint then ("USDT", 6)
        else ("SOL", 9)
      let t : TxType :=
        if transfer.fromUserAccount = walletAddress then .sent
        else if transfer.toUserAccount = walletAddress then .received
        else st₁.1
      (t, transfer.tokenAmount, tokDec.1, some transfer.mint, tokDec.2,
       transfer.fromUserAccount, transfer.toUserAccount)
  if st₂.1 ≠ .sent then none
  else
    some { signature := tx.signature
           timestamp := tx.timestamp
           slot := tx.slot
           fee := (tx.fee : Rat) / 1000000000
           type := st₂.1
           amount := st₂.2.1
           token := st₂.2.2.1
           tokenMint := st₂.2.2.2.1
           tokenDecimals := st₂.2.2.2.2.1
           fromAddress := st₂.2.2.2.2.2.1
           toAddress := st₂.2.2.2.2.2.2 }

/-- `RoundupCalculator.calculateRoundup`: round up to the nearest whole USD
dollar; `Math.ceil` followed by subtraction and `Math.max(0, ·)`. -/
def calculateRoundup (usdValue : Rat) : Rat :=
  let rounded : Int := ⌈usdValue⌉
  let roundup : Rat := (rounded : Rat) - usdValue
  max 0 roundup

/-- JavaScript `parseFloat(x.toFixed(2))` on the non-negative USD amounts of
this pipeline: exact decimal rounding to two places. -/
def round2 (q : Rat) : Rat :=
  ((round (q * 100) : Int) : Rat) / 100

/-- **C1.** `calculateRoundup(x)` equals `max(0, ceil(x) - x)` for every USD
value `x`; `calculateRoundup(13.35) = 0.65`, `calculateRoundup(9.00) = 0.00`,
`calculateRoundup(0.00) = 0.00`; and the result always lies in `[0, 1)`. -/
theorem calculateRoundup_correct :
    (∀ x : Rat, calculateRoundup x = max 0 ((⌈x⌉ : Rat) - x))
    ∧ calculateRoundup (1335/100) = 65/100
    ∧ calculateRoundup 9 = 0
    ∧ calculateRoundup 0 = 0
    ∧ ∀ x : Rat, 0 ≤ calculateRoundup x ∧ calculateRoundup x < 1 := by
  have hc₁ : (⌈(1335/100 : Rat)⌉ : Int) = 14 := by
    rw [Int.ceil_eq_iff]
    norm_num
  have hc₂ : (⌈(9 : Rat)⌉ : Int) = 9 := by
    rw [Int.ceil_eq_iff]
    norm_num
  refine ⟨fun x => rfl, ?_, ?_, ?_, fun x => ⟨le_max_left 0 _, ?_⟩⟩
  · simp only [calculateRoundup, hc₁]
    rw [max_eq_right (by norm_num)]
    norm_num
  · simp only [calculateRoundup, hc₂]
    norm_num
  · simp only [calculateRoundup, Int.ceil_zero]
    norm_num
  have hlt : (⌈x⌉ : Rat) - x < 1 := by
    have := Int.ceil_lt_add_one x
    linarith
  simp only [calculateRoundup]
  exact max_lt one_pos hlt

/-- One pass of the inner `for (const tx of transactions)` loop of
`fetchOutgoingTransactions` over a fetched page: pushes parsed `'sent'`
transactions until the baseline signature is encountered (second component of
the result is the `foundBaseline` flag). -/
def processPage (walletAddress : String) (afterSignature : Option String) :
    List HeliusTransaction → List ParsedHeliusTransaction → Bool →
    List ParsedHeliusTransaction × Bool
  | [], acc, foundBaseline => (acc, foundBaseline)
  | tx :: rest, acc, foundBaseline =>
    if afterSignature = some tx.signature then (acc, true)
    else if foundBaseline then processPage walletAddress afterSignature rest acc foundBaseline
    else
      match parseTransaction tx walletAddress with
      | some parsed =>
        if parsed.type = .sent then
          processPage walletAddress afterSignature rest (acc ++ [parsed]) foundBaseline
        else processPage walletAddress afterSignature rest acc foundBaseline
      | none => processPage walletAddress afterSignature rest acc foundBaseline

/-- The `while (allTransactions.length < limit)` pagination loop of
`HeliusService.fetchOutgoingTransactions`.  `remaining` is the part of the
upstream feed not yet consumed (the Helius `before` cursor positioned just
past the previously fetched page); `fetchTransactions` is modelled as
`remaining.take (min 100 (limit - acc.length))`.  The loop consumes at least
one feed element per iteration, so the explicit fuel — initialised to
`feed.length` — never runs out. -/
def fetchOutgoingGo (walletAddress : String) (afterSignature : Option String)
    (limit : Nat) :
    Nat → List HeliusTransaction → List ParsedHeliusTransaction → Bool →
    List ParsedHeliusTransaction
  | 0, _, acc, _ => acc
  | fuel + 1, remaining, acc, foundBaseline =>
    if acc.length < limit then
      let page := remaining.take (min 100 (limit - acc.length))
      if page.isEmpty then acc
      else
        let step := processPage walletAddress afterSignature page acc foundBaseline
        if step.2 then step.1
        else
          fetchOutgoingGo walletAddress afterSignature limit fuel
            (remaining.drop page.length) step.1 step.2
    else acc

/-- `HeliusService.fetchOutgoingTransactions(address, limit, afterSignature)`
over an upstream feed (newest first).  `foundBaseline` starts as
`afterSignature.isNone` — the source's `let foundBaseline = !afterSignature`. -/
def fetchOutgoingTransactions (walletAddress : String) (limit : Nat)
    (afterSignature : Option String) (feed : List HeliusTransaction) :
    List ParsedHeliusTransaction :=
  fetchOutgoingGo walletAddress afterSignature limit feed.length feed []
    afterSignature.isNone


/-- `RoundupCalculation` from `roundup-calculator.ts`.  `transaction_date` is
`new Date(timestamp * 1000).toISOString()`; since ISO strings order exactly as
their timestamps, it is modelled as the millisecond timestamp. -/
structure RoundupCalculation where
  transaction_id : String
  transaction_date : Int
  token : String
  token_mint : Option String
  token_amount : Rat
  usd_value : Rat
  round_up_value : Rat
  price_source : String
deriving DecidableEq, Repr

/-- A row of the `roundup_records` table (DB-assigned `id` and `created_at`
omitted; they are never read by the pipeline). -/
structure RoundupRecord where
  wallet_address : String
  transaction_id : String
  transaction_date : Int
  token : String
  token_mint : Option String
  token_amount : Rat
  usd_value : Rat
  round_up_value : Rat
  price_source : String
deriving DecidableEq, Repr

/-- The environment of external collaborators and injected failures:
the price oracle (`solPrice`, `tokenPrice`; `0` encodes "unavailable or
errored", as every failure path of the source returns `0`) and the database
failure injections (`insertFault` raises a non-duplicate persistence error for
the given transaction id; `readFault` fails the `roundup_records` select). -/
structure Env where
  solPrice : Rat
  tokenPrice : String → Rat
  insertFault : String → Bool
  readFault : Bool

/-- `RoundupCalculator.getTokenPrice`: SOL via the oracle, stablecoins pegged
to 1.00, other mints via the oracle, fallback 0. -/
def getTokenPrice (env : Env) (token : String) (tokenMint : Option String) : Rat :=
  if token = "SOL" then env.solPrice
  else if token = "USDC" ∨ token = "USDT" then 1
  else
    match tokenMint with
    | some mint => env.tokenPrice mint
    | none => 0

/-- `RoundupCalculator.processTransaction`: price the transaction, skip
(return `none`) on a zero price, otherwise compute the USD value and the
round-up and build the calculation (amounts stored 2-decimal rounded). -/
def processTransaction (env : Env) (t : ParsedHeliusTransaction) :
    Option RoundupCalculation :=
  let tokenPrice := getTokenPrice env t.token t.tokenMint
  if tokenPrice = 0 then none
  else
    let usdValue := t.amount * tokenPrice
    let roundUpValue := calculateRoundup usdValue
    some { transaction_id := t.signature
           transaction_date := t.timestamp * 1000
           token := t.token
           token_mint := t.tokenMint
           token_amount := t.amount
           usd_value := round2 usdValue
           round_up_value := round2 roundUpValue
           price_source := "coingecko" }

/-- The row inserted by `storeRoundup` for a wallet and a calculation. -/
def recordOf (walletAddress : String) (c : RoundupCalculation) : RoundupRecord :=
  { wallet_address := walletAddress
    transaction_id := c.transaction_id
    transaction_date := c.transaction_date
    token := c.token
    token_mint := c.token_mint
    token_amount := c.token_amount
    usd_value := c.usd_value
    round_up_value := c.round_up_value
    price_source := c.price_source }

/-- Database errors surfaced by the modelled Supabase operations:
`duplicateKey` is Postgres `23505` (unique-constraint violation), `other` is
any other persistence error. -/
inductive DbError where
  | duplicateKey
  | other
deriving DecidableEq, Repr

/-- The modelled insert into `roundup_records`: the unique constraint on
`transaction_id` rejects duplicates with `23505`; `insertFault` injects any
other persistence error; otherwise the row is appended. -/
def dbInsertRoundup (insertFault : String → Bool) (ledger : List RoundupRecord)
    (r : RoundupRecord) : Except DbError (RoundupRecord × List RoundupRecord) :=
  if ledger.any (fun e => e.transaction_id = r.transaction_id) then
    .error .duplicateKey
  else if insertFault r.transaction_id then .error .other
  else .ok (r, ledger ++ [r])

/-- `RoundupCalculator.storeRoundup`: insert the record; a duplicate-key error
(code `23505`) is swallowed and reported as `null`; any other error is
rethrown to the caller. -/
def storeRoundup (insertFault : String → Bool) (walletAddress : String)
    (ledger : List RoundupRecord) (c : RoundupCalculation) :
    Except DbError (Option RoundupRecord × List RoundupRecord) :=
  match dbInsertRoundup insertFault ledger (recordOf walletAddress c) with
  | .error .duplicateKey => .ok (none, ledger)
  | .error e => .error e
  | .ok (r, ledger') => .ok (some r, ledger')

/-- `RoundupCalculator.processAndStoreTransactions`: the per-transfer loop.
Each iteration is wrapped in `try { ... } catch { skipped++ }`, so an
unpriceable transaction, a duplicate insert, and a rethrown persistence error
all increment `skipped` and the loop continues.  Returns
`(stored, skipped, final ledger)`; the source's `total` is the input length. -/
def processAndStore (env : Env) (walletAddress : String) :
    List ParsedHeliusTransaction → List RoundupRecord →
    Nat × Nat × List RoundupRecord
  | [], ledger => (0, 0, ledger)
  | t :: rest, ledger =>
    match processTransaction env t with
    | none =>
      let r := processAndStore env walletAddress rest ledger
      (r.1, r.2.1 + 1, r.2.2)
    | some calculation =>
      match storeRoundup env.insertFault walletAddress ledger calculation with
      | .ok (some _, ledger') =>
        let r := processAndStore env walletAddress rest ledger'
        (r.1 + 1, r.2.1, r.2.2)
      | .ok (none, ledger') =>
        let r := processAndStore env walletAddress rest ledger'
        (r.1, r.2.1 + 1, r.2.2)
      | .error _ =>
        let r := processAndStore env walletAddress rest ledger
        (r.1, r.2.1 + 1, r.2.2)

/-- Descending order on `transaction_date` — the
`order('transaction_date', { ascending: false })` clause of `getRoundups`. -/
def dateDesc (a b : RoundupRecord) : Bool :=
  b.transaction_date ≤ a.transaction_date

/-- `RoundupCalculator.getRoundups(walletAddress, limit)` (successful read):
rows of the wallet, ordered by `transaction_date` descending, at most
`limit` of them. -/
def getRoundups (ledger : List RoundupRecord) (walletAddress : String)
    (limit : Nat) : List RoundupRecord :=
  (((ledger.filter (fun r => r.wallet_address = walletAddress)).mergeSort
    dateDesc).take limit)

/-- The `roundup_records` select behind `getRoundups`, with the read-failure
injection: on failure `getRoundups` rethrows to its caller. -/
def getRoundupsE (env : Env) (ledger : List RoundupRecord)
    (walletAddress : String) (limit : Nat) :
    Except DbError (List RoundupRecord) :=
  if env.readFault then .error .other
  else .ok (getRoundups ledger walletAddress limit)

/-- `RoundupCalculator.getTotalRoundup`: fetch up to 1000 records, sum their
`round_up_value`s, round to 2 decimals; any error is caught and `0` is
returned. -/
def getTotalRoundup (env : Env) (ledger : List RoundupRecord)
    (walletAddress : String) : Rat :=
  match getRoundupsE env ledger walletAddress 1000 with
  | .error _ => 0
  | .ok records => round2 ((records.map (fun r => r.round_up_value)).sum)

/-- `RoundupCalculator.isReadyForInvestment`: `total >= 1.0` (any failure
yields `false`, since `getTotalRoundup` already maps failures to `0`). -/
def isReadyForInvestment (env : Env) (ledger : List RoundupRecord)
    (walletAddress : String) : Bool :=
  1 ≤ getTotalRoundup env ledger walletAddress


/-- The `wallet_tracking` table: at most one row per wallet address, with the
nullable `last_tracked_tx` column (DB-assigned columns omitted). -/
abbrev TrackingTable := List (String × Option String)

/-- `BaselineTracker.getWalletTracking`: the row for the wallet, or `none`
when the select reports `PGRST116` (no record). -/
def getWalletTracking (table : TrackingTable) (walletAddress : String) :
    Option (Option String) :=
  (table.find? (fun p => p.1 = walletAddress)).map (fun p => p.2)

/-- `BaselineTracker.setBaseline`: upsert — update the row if the wallet
already has one, otherwise insert a new row. -/
def setBaseline (table : TrackingTable) (walletAddress txSignature : String) :
    TrackingTable :=
  if table.any (fun p => p.1 = walletAddress) then
    table.map (fun p =>
      if p.1 = walletAddress then (p.1, some txSignature) else p)
  else table ++ [(walletAddress, some txSignature)]

/-- `BaselineTracker.updateLastTracked`: SQL `UPDATE` of the matching row
(a no-op when no row matches). -/
def updateLastTracked (table : TrackingTable) (walletAddress txSignature : String) :
    TrackingTable :=
  table.map (fun p =>
    if p.1 = walletAddress then (p.1, some txSignature) else p)

/-- The persistent state read and written by the two route handlers. -/
structure DbState where
  walletTracking : TrackingTable
  roundupRecords : List RoundupRecord
deriving DecidableEq, Repr

/-- Errors surfaced by the `POST /api/roundups/track` handler. -/
inductive TrackError where
  | invalidAddress
  | notInitialized
deriving DecidableEq, Repr

/-- The `data` object of a successful `POST /api/roundups/track` response.
`isReadyForInvestment` and `mode` are absent (`none`) on the terminal-empty
path, which returns only the five other fields. -/
structure TrackResult where
  processed : Nat
  stored : Nat
  skipped : Nat
  totalRoundup : Rat
  newBaseline : String
  isReadyForInvestment : Option Bool
  mode : Option String
deriving DecidableEq, Repr

/-- Observable external actions of a tracking run, in program order. -/
inductive TrackEvent where
  | fetchTransfers
  | updateBaseline (txSignature : String)
deriving DecidableEq, Repr

/-- The `POST /api/roundups/track` handler: validate the address, require an
initialized baseline, fetch outgoing transactions since the baseline (or all
of them when `ignoreBaseline`), short-circuit on an empty batch, otherwise
process-and-store, advance the baseline to `newTransactions[0]` (newest
first), and report.  Returns the response, the final database state, and the
trace of external actions. -/
def trackRoundups (env : Env) (st : DbState) (address : String) (limit : Nat)
    (ignoreBaseline : Bool) (feed : List HeliusTransaction) :
    Except TrackError TrackResult × DbState × List TrackEvent :=
  if address = "" then (.error .invalidAddress, st, [])
  else
    match getWalletTracking st.walletTracking address with
    | none => (.error .notInitialized, st, [])
    | some none => (.error .notInitialized, st, [])
    | some (some lastTrackedTx) =>
      let baselineSignature : Option String :=
        if ignoreBaseline then none else some lastTrackedTx
      let newTransactions :=
        fetchOutgoingTransactions address limit baselineSignature feed
      match newTransactions with
      | [] =>
        (.ok { processed := 0, stored := 0, skipped := 0
               totalRoundup := getTotalRoundup env st.roundupRecords address
               newBaseline := lastTrackedTx
               isReadyForInvestment := none, mode := none },
         st, [.fetchTransfers])
      | mostRecentTx :: restTxs =>
        let result :=
          processAndStore env address (mostRecentTx :: restTxs) st.roundupRecords
        let tracking' :=
          updateLastTracked st.walletTracking address mostRecentTx.signature
        let totalRoundup := getTotalRoundup env result.2.2 address
        (.ok { processed := (mostRecentTx :: restTxs).length
               stored := result.1
               skipped := result.2.1
               totalRoundup := totalRoundup
               newBaseline := mostRecentTx.signature
               isReadyForInvestment := some (decide (1 ≤ totalRoundup))
               mode := some (if ignoreBaseline then "historical" else "incremental") },
         { walletTracking := tracking', roundupRecords := result.2.2 },
         [.fetchTransfers, .updateBaseline mostRecentTx.signature])

/-- Errors surfaced by the `POST /api/wallet/init` handler (the two `400`
address rejections are both the invalid-address condition; the `404` is the
no-transaction-history condition). -/
inductive InitError where
  | invalidAddress
  | noTransactionHistory
deriving DecidableEq, Repr

/-- The `data` object of a successful `POST /api/wallet/init` response. -/
structure InitResult where
  last_tracked_tx : String
  isNewWallet : Bool
deriving DecidableEq, Repr

/-- `HeliusService.getMostRecentTransaction`: the newest feed entry, with any
transport error caught and turned into `null` (`heliusFault`). -/
def getMostRecentTransaction (heliusFault : Bool)
    (feed : List HeliusTransaction) : Option HeliusTransaction :=
  if heliusFault then none
  else (feed.take 1).head?

/-- The `POST /api/wallet/init` handler: validate the address (present, and
32–44 characters), return the existing baseline unchanged if the wallet
already has one, otherwise look up the wallet's most recent transaction and
set it as the baseline; `isNewWallet` is true exactly when no tracking row
existed at all. -/
def walletInit (heliusFault : Bool) (feed : List HeliusTransaction)
    (table : TrackingTable) (address : String) :
    Except InitError InitResult × TrackingTable :=
  if address = "" then (.error .invalidAddress, table)
  else if address.length < 32 ∨ 44 < address.length then
    (.error .invalidAddress, table)
  else
    match getWalletTracking table address with
    | some (some lastTrackedTx) =>
      (.ok { last_tracked_tx := lastTrackedTx, isNewWallet := false }, table)
    | existingTracking =>
      match getMostRecentTransaction heliusFault feed with
      | none => (.error .noTransactionHistory, table)
      | some mostRecentTx =>
        (.ok { last_tracked_tx := mostRecentTx.signature
               isNewWallet := existingTracking.isNone },
         setBaseline table address mostRecentTx.signature)


/-! ### General lemmas about the embedded operations -/

/-- `round2` is the identity on amounts that are whole multiples of a cent. -/
theorem round2_intMul (q : Rat) (n : Int) (h : q * 100 = (n : Rat)) :
    round2 q = (n : Rat) / 100 := by
  simp only [round2, h, round_intCast]

/-- Evaluation rule for `calculateRoundup` when the ceiling is known. -/
theorem calculateRoundup_eval (x : Rat) (n : Int) (h₁ : (⌈x⌉ : Int) = n)
    (h₂ : x ≤ (n : Rat)) : calculateRoundup x = (n : Rat) - x := by
  simp only [calculateRoundup, h₁]
  exact max_eq_right (by linarith)

/-- A transaction is skipped by `processTransaction` exactly when its price is
unavailable (zero). -/
theorem processTransaction_eq_none_iff (env : Env) (t : ParsedHeliusTransaction) :
    processTransaction env t = none ↔ getTokenPrice env t.token t.tokenMint = 0 := by
  simp only [processTransaction]
  by_cases h : getTokenPrice env t.token t.tokenMint = 0 <;> simp [h]

/-- Every transaction of a batch is accounted for: `stored + skipped` equals
the batch length (`processed`), whatever prices, duplicates and injected
persistence errors occur. -/
theorem processAndStore_sum (env : Env) (walletAddress : String) :
    ∀ (txs : List ParsedHeliusTransaction) (ledger : List RoundupRecord),
      (processAndStore env walletAddress txs ledger).1 +
        (processAndStore env walletAddress txs ledger).2.1 = txs.length
  | [], _ => rfl
  | t :: rest, ledger => by
    cases hp : processTransaction env t with
    | none =>
      have ih := processAndStore_sum env walletAddress rest ledger
      simp only [processAndStore, hp, List.length_cons]
      omega
    | some calculation =>
      cases hs : storeRoundup env.insertFault walletAddress ledger calculation with
      | error e =>
        have ih := processAndStore_sum env walletAddress rest ledger
        simp only [processAndStore, hp, hs, List.length_cons]
        omega
      | ok pr =>
        obtain ⟨r, ledger'⟩ := pr
        cases r with
        | none =>
          have ih := processAndStore_sum env walletAddress rest ledger'
          simp only [processAndStore, hp, hs, List.length_cons]
          omega
        | some rec₁ =>
          have ih := processAndStore_sum env walletAddress rest ledger'
          simp only [processAndStore, hp, hs, List.length_cons]
          omega

/-- Every transaction whose price is unavailable is counted as skipped (the
skip counter dominates the number of unpriceable transactions in the batch). -/
theorem processAndStore_skipped_ge (env : Env) (walletAddress : String) :
    ∀ (txs : List ParsedHeliusTransaction) (ledger : List RoundupRecord),
      (txs.filter
        (fun t => getTokenPrice env t.token t.tokenMint = 0)).length ≤
        (processAndStore env walletAddress txs ledger).2.1
  | [], _ => by simp [processAndStore]
  | t :: rest, ledger => by
    by_cases hz : getTokenPrice env t.token t.tokenMint = 0
    · have hp : processTransaction env t = none :=
        (processTransaction_eq_none_iff env t).mpr hz
      have ih := processAndStore_skipped_ge env walletAddress rest ledger
      simp only [processAndStore, hp]
      simp [List.filter_cons, hz]
      omega
    · have ih : ∀ l, (rest.filter
          (fun t => getTokenPrice env t.token t.tokenMint = 0)).length ≤
          (processAndStore env walletAddress rest l).2.1 :=
        fun l => processAndStore_skipped_ge env walletAddress rest l
      have hfc : ((t :: rest).filter
          (fun t => getTokenPrice env t.token t.tokenMint = 0)) =
          (rest.filter (fun t => getTokenPrice env t.token t.tokenMint = 0)) := by
        simp [List.filter_cons, hz]
      rw [hfc]
      cases hp : processTransaction env t with
      | none =>
        simp only [processAndStore, hp]
        exact le_trans (ih ledger) (by omega)
      | some calculation =>
        cases hs : storeRoundup env.insertFault walletAddress ledger calculation with
        | error e =>
          simp only [processAndStore, hp, hs]
          exact le_trans (ih ledger) (by omega)
        | ok pr =>
          obtain ⟨r, ledger'⟩ := pr
          cases r with
          | none =>
            simp only [processAndStore, hp, hs]
            exact le_trans (ih ledger') (by omega)
          | some rec₁ =>
            simp only [processAndStore, hp, hs]
            exact ih ledger'


/-! ### C2 — idempotence of recording -/

/-- **C2.** Recording a round-up entry is idempotent on transfer id: whenever
an entry with the same transaction id already exists, `storeRoundup` returns
`null` (an `.ok none`, not an error) and leaves the ledger unchanged; in
particular a fresh insert followed by a repeated insert of the same
calculation leaves exactly one entry for that transaction id, and the
wallet's total is unaffected by the second call. -/
theorem storeRoundup_idempotent (env : Env) (insertFault : String → Bool)
    (walletAddress : String) (c : RoundupCalculation)
    (ledger : List RoundupRecord)
    (hnew : ledger.any (fun e => e.transaction_id = c.transaction_id) = false)
    (hfault : insertFault c.transaction_id = false) :
    (∀ l : List RoundupRecord,
        l.any (fun e => e.transaction_id = c.transaction_id) = true →
        storeRoundup insertFault walletAddress l c = .ok (none, l))
    ∧ storeRoundup insertFault walletAddress ledger c =
        .ok (some (recordOf walletAddress c), ledger ++ [recordOf walletAddress c])
    ∧ storeRoundup insertFault walletAddress
        (ledger ++ [recordOf walletAddress c]) c =
        .ok (none, ledger ++ [recordOf walletAddress c])
    ∧ ((ledger ++ [recordOf walletAddress c]).filter
        (fun e => e.transaction_id = c.transaction_id)).length = 1
    ∧ ∀ l₂, storeRoundup insertFault walletAddress
          (ledger ++ [recordOf walletAddress c]) c = .ok (none, l₂) →
        getTotalRoundup env l₂ walletAddress =
          getTotalRoundup env (ledger ++ [recordOf walletAddress c])
            walletAddress := by
  have hrec : (recordOf walletAddress c).transaction_id = c.transaction_id := rfl
  have hdup : ∀ l : List RoundupRecord,
      l.any (fun e => e.transaction_id = c.transaction_id) = true →
      storeRoundup insertFault walletAddress l c = .ok (none, l) := by
    intro l hl
    simp only [storeRoundup, dbInsertRoundup, hrec, hl]
    rfl
  have hsecond : storeRoundup insertFault walletAddress
      (ledger ++ [recordOf walletAddress c]) c =
      .ok (none, ledger ++ [recordOf walletAddress c]) := by
    apply hdup
    simp [List.any_append, hrec]
  refine ⟨hdup, ?_, hsecond, ?_, ?_⟩
  · simp only [storeRoundup, dbInsertRoundup, hrec, hnew]
    simp [hfault]
  · have hfl : ledger.filter
        (fun e => e.transaction_id = c.transaction_id) = [] := by
      rw [List.filter_eq_nil_iff]
      intro a ha
      have := (List.any_eq_false).mp hnew a ha
      simpa using this
    simp [List.filter_append, hfl, hrec]
  · intro l₂ h₂
    rw [hsecond] at h₂
    cases h₂
    rfl

/-- A concrete calculation used by the C2 witness: an $8.85 USDC transfer
with round-up $0.15. -/
def calcW : RoundupCalculation :=
  { transaction_id := "tx1"
    transaction_date := 1000
    token := "USDC"
    token_mint := none
    token_amount := 885/100
    usd_value := 885/100
    round_up_value := 15/100
    price_source := "coingecko" }

/-- A fault-free environment with no priced assets (prices are irrelevant to
the ledger read/write layer). -/
def envPure : Env :=
  { solPrice := 0
    tokenPrice := fun _ => 0
    insertFault := fun _ => false
    readFault := false }

/-- Witness for C2 at a concrete input: inserting `calcW` into an empty
ledger and repeating the insert returns `null` the second time and leaves a
single entry. -/
theorem storeRoundup_idempotent_witness :
    (([] : List RoundupRecord).any
        (fun e => e.transaction_id = calcW.transaction_id) = false)
    ∧ storeRoundup (fun _ => false) "walletW"
        (([] : List RoundupRecord) ++ [recordOf "walletW" calcW]) calcW =
        .ok (none, ([] : List RoundupRecord) ++ [recordOf "walletW" calcW])
    ∧ ((([] : List RoundupRecord) ++ [recordOf "walletW" calcW]).filter
        (fun e => e.transaction_id = calcW.transaction_id)).length = 1 :=
  ⟨by simp,
   (storeRoundup_idempotent envPure (fun _ => false) "walletW" calcW []
      (by simp) rfl).2.2.1,
   (storeRoundup_idempotent envPure (fun _ => false) "walletW" calcW []
      (by simp) rfl).2.2.2.1⟩


/-! ### C6 — readiness threshold, and C10 — read-failure behaviour -/

/-- On a ledger that is entirely the wallet's, already sorted newest-first
and within the limit, `getRoundups` is the identity. -/
theorem getRoundups_of_sorted (ledger : List RoundupRecord)
    (walletAddress : String) (limit : Nat)
    (hw : ∀ r ∈ ledger, r.wallet_address = walletAddress)
    (hs : ledger.Pairwise (fun a b => dateDesc a b = true))
    (hl : ledger.length ≤ limit) :
    getRoundups ledger walletAddress limit = ledger := by
  unfold getRoundups
  rw [List.filter_eq_self.mpr (by intro a ha; simpa using hw a ha)]
  rw [List.mergeSort_of_sorted hs]
  exact List.take_of_length_le hl

/-- $0.65 entry (newest) of the one-dollar ledger. -/
def recA1 : RoundupRecord :=
  { wallet_address := "walletW", transaction_id := "a1"
    transaction_date := 2000, token := "USDC", token_mint := none
    token_amount := 135/100, usd_value := 135/100
    round_up_value := 65/100, price_source := "coingecko" }

/-- $0.35 entry (older) of the one-dollar ledger. -/
def recA2 : RoundupRecord :=
  { wallet_address := "walletW", transaction_id := "a2"
    transaction_date := 1000, token := "USDC", token_mint := none
    token_amount := 265/100, usd_value := 265/100
    round_up_value := 35/100, price_source := "coingecko" }

/-- $0.99 single entry of the 99-cent ledger. -/
def recB1 : RoundupRecord :=
  { wallet_address := "walletW", transaction_id := "b1"
    transaction_date := 1000, token := "USDC", token_mint := none
    token_amount := 901/100, usd_value := 901/100
    round_up_value := 99/100, price_source := "coingecko" }

/-- A ledger whose round-ups sum to exactly $1.00. -/
def ledgerOneDollar : List RoundupRecord := [recA1, recA2]

/-- A ledger whose round-ups sum to $0.99. -/
def ledgerCent99 : List RoundupRecord := [recB1]

/-- On a successful read, `getTotalRoundup` is the 2-decimal rounding of the
sum over the (at most 1000) records returned by `getRoundups`. -/
theorem getTotalRoundup_ok (env : Env) (ledger : List RoundupRecord)
    (walletAddress : String) (hf : env.readFault = false) :
    getTotalRoundup env ledger walletAddress =
      round2 (((getRoundups ledger walletAddress 1000).map
        (fun r => r.round_up_value)).sum) := by
  simp [getTotalRoundup, getRoundupsE, hf]

/-- **C6.** `isReadyForInvestment` is true exactly when the wallet total is
at least $1.00; entries summing to exactly $1.00 are ready, and entries
summing to $0.99 are not. -/
theorem isReadyForInvestment_threshold :
    (∀ (env : Env) (ledger : List RoundupRecord) (walletAddress : String),
      isReadyForInvestment env ledger walletAddress = true ↔
        1 ≤ getTotalRoundup env ledger walletAddress)
    ∧ isReadyForInvestment envPure ledgerOneDollar "walletW" = true
    ∧ isReadyForInvestment envPure ledgerCent99 "walletW" = false := by
  have hiff : ∀ (env : Env) (ledger : List RoundupRecord) (w : String),
      isReadyForInvestment env ledger w = true ↔
        1 ≤ getTotalRoundup env ledger w := by
    intro env ledger w
    simp [isReadyForInvestment]
  have hA : getTotalRoundup envPure ledgerOneDollar "walletW" = 1 := by
    have hg : getRoundups ledgerOneDollar "walletW" 1000 = ledgerOneDollar := by
      apply getRoundups_of_sorted
      · intro r hr
        fin_cases hr <;> rfl
      · simp [ledgerOneDollar, List.pairwise_cons, dateDesc, recA1, recA2]
      · simp [ledgerOneDollar]
    have hsum : ((ledgerOneDollar.map (fun r => r.round_up_value)).sum) = 1 := by
      simp [ledgerOneDollar, recA1, recA2]
      norm_num
    rw [getTotalRoundup_ok envPure ledgerOneDollar "walletW" rfl, hg, hsum,
      round2_intMul 1 100 (by norm_num)]
    norm_num
  have hB : getTotalRoundup envPure ledgerCent99 "walletW" = 99/100 := by
    have hg : getRoundups ledgerCent99 "walletW" 1000 = ledgerCent99 := by
      apply getRoundups_of_sorted
      · intro r hr
        fin_cases hr
        rfl
      · simp [ledgerCent99]
      · simp [ledgerCent99]
    have hsum : ((ledgerCent99.map (fun r => r.round_up_value)).sum) = 99/100 := by
      simp [ledgerCent99, recB1]
    rw [getTotalRoundup_ok envPure ledgerCent99 "walletW" rfl, hg, hsum,
      round2_intMul (99/100) 99 (by norm_num)]
    norm_num
  refine ⟨hiff, ?_, ?_⟩
  · rw [hiff, hA]
  · rw [Bool.eq_false_iff]
    intro h
    rw [hiff, hB] at h
    norm_num at h

/-- **C10.** When the underlying read of a wallet's round-up records fails,
`getTotalRoundup` returns `0` instead of propagating the error and
`isReadyForInvestment` returns `false`; the failed read is therefore
indistinguishable from an empty ledger for a caller of `GetTotal`. -/
theorem getTotalRoundup_read_failure :
    ∀ (env : Env) (ledger : List RoundupRecord) (walletAddress : String),
      env.readFault = true →
      getTotalRoundup env ledger walletAddress = 0
      ∧ isReadyForInvestment env ledger walletAddress = false
      ∧ getTotalRoundup env ledger walletAddress =
          getTotalRoundup envPure [] walletAddress := by
  intro env ledger w hf
  have h0 : getTotalRoundup env ledger w = 0 := by
    simp [getTotalRoundup, getRoundupsE, hf]
  have he : getTotalRoundup envPure [] w = 0 := by
    rw [getTotalRoundup_ok envPure [] w rfl]
    simp only [getRoundups, List.filter_nil, List.mergeSort_nil, List.take_nil,
      List.map_nil, List.sum_nil]
    rw [round2_intMul 0 0 (by norm_num)]
    norm_num
  refine ⟨h0, ?_, by rw [h0, he]⟩
  rw [Bool.eq_false_iff]
  intro h
  simp only [isReadyForInvestment, h0, decide_eq_true_eq] at h
  norm_num at h

/-- Witness for C10 at a concrete input: with a failing read, the total of the
one-dollar ledger is reported as `0` and readiness as `false`. -/
theorem getTotalRoundup_read_failure_witness :
    getTotalRoundup { envPure with readFault := true } ledgerOneDollar
      "walletW" = 0
    ∧ isReadyForInvestment { envPure with readFault := true } ledgerOneDollar
      "walletW" = false :=
  ⟨(getTotalRoundup_read_failure { envPure with readFault := true }
      ledgerOneDollar "walletW" rfl).1,
   (getTotalRoundup_read_failure { envPure with readFault := true }
      ledgerOneDollar "walletW" rfl).2.1⟩


/-! ### C4 — uninitialized rejection -/

/-- **C4.** `TrackRoundups` on a wallet without a baseline (no tracking row,
or a row with a null `last_tracked_tx`) fails with the not-initialized
condition, performs no transfer fetch (empty action trace) and no writes
(the database state is returned unchanged). -/
theorem trackRoundups_uninitialized (env : Env) (st : DbState)
    (address : String) (limit : Nat) (feed : List HeliusTransaction)
    (haddr : address ≠ "")
    (hbase : getWalletTracking st.walletTracking address = none ∨
      getWalletTracking st.walletTracking address = some none) :
    trackRoundups env st address limit false feed =
      (.error .notInitialized, st, []) := by
  rcases hbase with h | h <;>
    simp [trackRoundups, haddr, h]

/-- Witness for C4 at a concrete input: a state that tracks only another
wallet, and a non-empty feed that is never fetched. -/
theorem trackRoundups_uninitialized_witness :
    trackRoundups envPure
      { walletTracking := [("walletOther", some "T9")], roundupRecords := [] }
      "walletW" 100 false
      [{ signature := "T1", slot := 1, timestamp := 1, fee := 5000
         nativeTransfers := [], tokenTransfers := [] }] =
      (.error .notInitialized,
       { walletTracking := [("walletOther", some "T9")], roundupRecords := [] },
       []) :=
  trackRoundups_uninitialized envPure
    { walletTracking := [("walletOther", some "T9")], roundupRecords := [] }
    "walletW" 100
    [{ signature := "T1", slot := 1, timestamp := 1, fee := 5000
       nativeTransfers := [], tokenTransfers := [] }]
    (by decide)
    (Or.inl (by simp [getWalletTracking]))


/-! ### C8 — wallet initialization -/

/-- **C8.** `InitializeWallet` is idempotent: on an already-initialized wallet
it returns the existing baseline unchanged with `isNewWallet = false` and does
not modify the stored last-tracked transaction id; it fails with the
invalid-address condition on a malformed address, and with the
no-transaction-history condition when the transfer source has nothing for the
wallet. -/
theorem walletInit_spec (heliusFault : Bool) (feed : List HeliusTransaction)
    (table : TrackingTable) (address lastTrackedTx : String) :
    (getWalletTracking table address = some (some lastTrackedTx) →
      32 ≤ address.length → address.length ≤ 44 →
      walletInit heliusFault feed table address =
        (.ok { last_tracked_tx := lastTrackedTx, isNewWallet := false }, table))
    ∧ (address.length < 32 ∨ 44 < address.length →
      walletInit heliusFault feed table address =
        (.error .invalidAddress, table))
    ∧ (32 ≤ address.length → address.length ≤ 44 →
      (getWalletTracking table address = none ∨
       getWalletTracking table address = some none) →
      getMostRecentTransaction heliusFault feed = none →
      walletInit heliusFault feed table address =
        (.error .noTransactionHistory, table)) := by
  refine ⟨?_, ?_, ?_⟩
  · intro h h32 h44
    have hne : address ≠ "" := by
      intro h0
      rw [h0] at h32
      exact absurd h32 (by decide)
    have hlen : ¬(address.length < 32 ∨ 44 < address.length) := by omega
    simp [walletInit, hne, hlen, h]
  · intro hbad
    by_cases h0 : address = ""
    · simp [walletInit, h0]
    · simp [walletInit, h0, hbad]
  · intro h32 h44 hbase hmost
    have hne : address ≠ "" := by
      intro h0
      rw [h0] at h32
      exact absurd h32 (by decide)
    have hlen : ¬(address.length < 32 ∨ 44 < address.length) := by omega
    rcases hbase with h | h <;> simp [walletInit, hne, hlen, h, hmost]

/-- A 32-character wallet address used by concrete scenarios. -/
def addrW : String := "WWWWWWWWWWWWWWWWWWWWWWWWWWWWWWWW"

/-- Witness for C8 at concrete inputs: re-initializing an initialized wallet
returns the stored baseline `"T0"` unchanged; a 3-character address is
rejected; a valid but unknown wallet with an empty feed gets the
no-transaction-history failure. -/
theorem walletInit_spec_witness :
    walletInit false [] [(addrW, some "T0")] addrW =
      (.ok { last_tracked_tx := "T0", isNewWallet := false },
       [(addrW, some "T0")])
    ∧ walletInit false [] [(addrW, some "T0")] "abc" =
      (.error .invalidAddress, [(addrW, some "T0")])
    ∧ walletInit false [] [] addrW = (.error .noTransactionHistory, []) :=
  ⟨(walletInit_spec false [] [(addrW, some "T0")] addrW "T0").1
      (by simp [getWalletTracking]) (by decide) (by decide),
   (walletInit_spec false [] [(addrW, some "T0")] "abc" "T0").2.1
      (by decide),
   (walletInit_spec false [] [] addrW "T0").2.2
      (by decide) (by decide) (Or.inl (by simp [getWalletTracking])) rfl⟩


/-! ### C3 — skip-without-stall -/

/-- Updating the last-tracked transaction of a wallet that has a tracking row
makes its stored baseline the new signature. -/
theorem getWalletTracking_updateLastTracked :
    ∀ (table : TrackingTable) (walletAddress txSignature : String),
      (getWalletTracking table walletAddress).isSome →
      getWalletTracking (updateLastTracked table walletAddress txSignature)
        walletAddress = some (some txSignature)
  | [], w, sig, h => by simp [getWalletTracking] at h
  | (a, b) :: rest, w, sig, h => by
    by_cases hw : a = w
    · simp [getWalletTracking, updateLastTracked, hw]
    · have h' : (getWalletTracking rest w).isSome := by
        simpa [getWalletTracking, List.find?_cons, hw] using h
      have ih := getWalletTracking_updateLastTracked rest w sig h'
      simpa [getWalletTracking, updateLastTracked, List.find?_cons, hw]
        using ih

/-- Unfolding of a `TrackRoundups` run on an initialized wallet whose fetch
returns a non-empty batch: the response reports `processed` as the batch
length and the baseline advances to the newest (first) fetched signature. -/
theorem trackRoundups_run_eq (env : Env) (st : DbState)
    (address lastTx : String) (limit : Nat) (feed : List HeliusTransaction)
    (t : ParsedHeliusTransaction) (ts : List ParsedHeliusTransaction)
    (hne : address ≠ "")
    (hinit : getWalletTracking st.walletTracking address = some (some lastTx))
    (hfetch : fetchOutgoingTransactions address limit (some lastTx) feed =
      t :: ts) :
    trackRoundups env st address limit false feed =
      (.ok { processed := (t :: ts).length
             stored := (processAndStore env address (t :: ts) st.roundupRecords).1
             skipped :=
               (processAndStore env address (t :: ts) st.roundupRecords).2.1
             totalRoundup := getTotalRoundup env
               (processAndStore env address (t :: ts) st.roundupRecords).2.2
               address
             newBaseline := t.signature
             isReadyForInvestment := some (decide (1 ≤ getTotalRoundup env
               (processAndStore env address (t :: ts) st.roundupRecords).2.2
               address))
             mode := some "incremental" },
       { walletTracking := updateLastTracked st.walletTracking address
           t.signature
         roundupRecords :=
           (processAndStore env address (t :: ts) st.roundupRecords).2.2 },
       [.fetchTransfers, .updateBaseline t.signature]) := by
  simp only [trackRoundups, hne, hinit, Bool.false_eq_true, if_false, hfetch]


/-- The mainnet USDC mint string. -/
def mintU : String := "EPjFWdd5AufqSSqeM2qN1xzybapC8G4wEGGkZwyTDt1v"

/-- Newest batch transaction: $22.80 USDC sent by the wallet (signature T3). -/
def h3C : HeliusTransaction :=
  { signature := "T3", slot := 103, timestamp := 3, fee := 5000
    nativeTransfers := []
    tokenTransfers := [{ fromUserAccount := addrW, toUserAccount := "merchantC"
                         tokenAmount := 228/10, mint := mintU }] }

/-- Middle batch transaction: 2 SOL sent by the wallet (signature T2); the
SOL price is unavailable (zero) in `envPure`, so it is unpriceable. -/
def h2C : HeliusTransaction :=
  { signature := "T2", slot := 102, timestamp := 2, fee := 5000
    nativeTransfers := [{ fromUserAccount := addrW
                          toUserAccount := "merchantB"
                          amount := 2000000000 }]
    tokenTransfers := [] }

/-- Oldest batch transaction: $8.85 USDC sent by the wallet (signature T1). -/
def h1C : HeliusTransaction :=
  { signature := "T1", slot := 101, timestamp := 1, fee := 5000
    nativeTransfers := []
    tokenTransfers := [{ fromUserAccount := addrW, toUserAccount := "merchantA"
                         tokenAmount := 885/100, mint := mintU }] }

/-- The baseline transaction already tracked for the wallet (signature T0). -/
def h0C : HeliusTransaction :=
  { signature := "T0", slot := 100, timestamp := 0, fee := 5000
    nativeTransfers := [{ fromUserAccount := addrW
                          toUserAccount := "merchantZ"
                          amount := 1000000000 }]
    tokenTransfers := [] }

/-- The upstream feed for the concrete scenario, newest first. -/
def feedC : List HeliusTransaction := [h3C, h2C, h1C, h0C]

/-- Parse of `h3C` for the wallet. -/
def p3C : ParsedHeliusTransaction :=
  { signature := "T3", timestamp := 3, slot := 103
    fee := ((5000 : Int) : Rat) / 1000000000, type := .sent, amount := 228/10
    token := "USDC", tokenMint := some mintU, tokenDecimals := 6
    fromAddress := addrW, toAddress := "merchantC" }

/-- Parse of `h2C` for the wallet. -/
def p2C : ParsedHeliusTransaction :=
  { signature := "T2", timestamp := 2, slot := 102
    fee := ((5000 : Int) : Rat) / 1000000000, type := .sent
    amount := ((2000000000 : Int) : Rat) / 1000000000
    token := "SOL", tokenMint := none, tokenDecimals := 9
    fromAddress := addrW, toAddress := "merchantB" }

/-- Parse of `h1C` for the wallet. -/
def p1C : ParsedHeliusTransaction :=
  { signature := "T1", timestamp := 1, slot := 101
    fee := ((5000 : Int) : Rat) / 1000000000, type := .sent, amount := 885/100
    token := "USDC", tokenMint := some mintU, tokenDecimals := 6
    fromAddress := addrW, toAddress := "merchantA" }

/-- The round-up calculation produced for `p3C` (as built by
`processTransaction`, before numeric simplification). -/
def calc3C : RoundupCalculation :=
  { transaction_id := "T3", transaction_date := 3000
    token := "USDC", token_mint := some mintU, token_amount := 228/10
    usd_value := round2 (228/10 * 1)
    round_up_value := round2 (calculateRoundup (228/10 * 1))
    price_source := "coingecko" }

/-- The round-up calculation produced for `p1C`. -/
def calc1C : RoundupCalculation :=
  { transaction_id := "T1", transaction_date := 1000
    token := "USDC", token_mint := some mintU, token_amount := 885/100
    usd_value := round2 (885/100 * 1)
    round_up_value := round2 (calculateRoundup (885/100 * 1))
    price_source := "coingecko" }

/-- The initial state of the concrete scenario: the wallet is initialized at
baseline T0 and the ledger is empty. -/
def stC : DbState :=
  { walletTracking := [(addrW, some "T0")], roundupRecords := [] }

/-- Concrete fetch: the three transactions newer than the baseline parse to
`[p3C, p2C, p1C]`, newest first. -/
theorem fetchOutgoing_feedC :
    fetchOutgoingTransactions addrW 100 (some "T0") feedC = [p3C, p2C, p1C] :=
  rfl

/-- Concrete processing: the middle transaction is skipped (zero SOL price)
and the other two are stored, in order. -/
theorem processAndStore_feedC :
    processAndStore envPure addrW [p3C, p2C, p1C] [] =
      (2, 1, [recordOf addrW calc3C, recordOf addrW calc1C]) :=
  rfl


/-- Concrete totals: the two stored round-ups ($0.20 and $0.15) total $0.35. -/
theorem getTotalRoundup_ledgerC (env : Env) (hf : env.readFault = false) :
    getTotalRoundup env [recordOf addrW calc3C, recordOf addrW calc1C]
      addrW = 35/100 := by
  have hcal3 : calculateRoundup (228/10 * 1 : Rat) = 2/10 := by
    rw [calculateRoundup_eval (228/10 * 1 : Rat) 23
      (by rw [Int.ceil_eq_iff]; norm_num) (by norm_num)]
    norm_num
  have hcal1 : calculateRoundup (885/100 * 1 : Rat) = 15/100 := by
    rw [calculateRoundup_eval (885/100 * 1 : Rat) 9
      (by rw [Int.ceil_eq_iff]; norm_num) (by norm_num)]
    norm_num
  have hru3 : round2 (calculateRoundup (228/10 * 1 : Rat)) = 2/10 := by
    rw [hcal3, round2_intMul (2/10) 20 (by norm_num)]
    norm_num
  have hru1 : round2 (calculateRoundup (885/100 * 1 : Rat)) = 15/100 := by
    rw [hcal1, round2_intMul (15/100) 15 (by norm_num)]
    norm_num
  rw [getTotalRoundup_ok env _ addrW hf]
  rw [getRoundups_of_sorted _ addrW 1000 (by intro r hr; fin_cases hr <;> rfl)
    (by simp [List.pairwise_cons, dateDesc, recordOf, calc3C, calc1C])
    (by simp)]
  simp only [List.map_cons, List.map_nil, recordOf, calc3C, calc1C]
  rw [List.sum_cons, List.sum_cons, List.sum_nil, hru3, hru1]
  rw [show (2/10 + (15/100 + 0) : Rat) = 35/100 by norm_num]
  rw [round2_intMul (35/100) 35 (by norm_num)]
  norm_num

/-- **C3.** A `TrackRoundups` run whose fetch returns a non-empty batch of
`n` transfers reports `processed = n` and `stored + skipped = n`; every
transfer whose price is unavailable is counted as skipped without aborting
the batch; and the baseline advances to the newest fetched transfer id even
when some transfers were skipped.  In the concrete 3-transfer scenario with
an unpriceable middle transfer, the run reports `processed = 3, stored = 2,
skipped = 1` and advances the baseline to the newest signature T3. -/
theorem trackRoundups_skip_without_stall :
    (∀ (env : Env) (st : DbState) (address lastTx : String) (limit : Nat)
        (feed : List HeliusTransaction) (t : ParsedHeliusTransaction)
        (ts : List ParsedHeliusTransaction),
      address ≠ "" →
      getWalletTracking st.walletTracking address = some (some lastTx) →
      fetchOutgoingTransactions address limit (some lastTx) feed = t :: ts →
      ∃ (res : TrackResult) (st' : DbState) (ev : List TrackEvent),
        trackRoundups env st address limit false feed = (.ok res, st', ev)
        ∧ res.processed = (t :: ts).length
        ∧ res.stored + res.skipped = res.processed
        ∧ ((t :: ts).filter
            (fun x => getTokenPrice env x.token x.tokenMint = 0)).length ≤
            res.skipped
        ∧ res.newBaseline = t.signature
        ∧ getWalletTracking st'.walletTracking address =
            some (some t.signature))
    ∧ trackRoundups envPure stC addrW 100 false feedC =
        (.ok { processed := 3, stored := 2, skipped := 1
               totalRoundup := 35/100, newBaseline := "T3"
               isReadyForInvestment := some false
               mode := some "incremental" },
         { walletTracking := [(addrW, some "T3")]
           roundupRecords := [recordOf addrW calc3C, recordOf addrW calc1C] },
         [.fetchTransfers, .updateBaseline "T3"]) := by
  constructor
  · intro env st address lastTx limit feed t ts hne hinit hfetch
    refine ⟨_, _, _,
      trackRoundups_run_eq env st address lastTx limit feed t ts hne hinit
        hfetch, rfl, ?_, ?_, rfl, ?_⟩
    · exact processAndStore_sum env address (t :: ts) st.roundupRecords
    · exact processAndStore_skipped_ge env address (t :: ts) st.roundupRecords
    · exact getWalletTracking_updateLastTracked st.walletTracking address
        t.signature (by rw [hinit]; rfl)
  · rw [trackRoundups_run_eq envPure stC addrW "T0" 100 feedC p3C [p2C, p1C]
      (by decide) rfl fetchOutgoing_feedC]
    have hdec : (decide ((1 : Rat) ≤ 35/100)) = false := by
      rw [decide_eq_false_iff_not]
      norm_num
    have hsig : p3C.signature = "T3" := rfl
    simp only [hsig, stC, processAndStore_feedC,
      getTotalRoundup_ledgerC envPure rfl, hdec, updateLastTracked,
      List.map_cons, List.map_nil, List.length_cons, List.length_nil]
    simp

/-- Witness for C3: the general statement applied to the concrete scenario
(initialized wallet, non-empty batch of three with an unpriceable middle
transfer). -/
theorem trackRoundups_skip_without_stall_witness :
    ∃ (res : TrackResult) (st' : DbState) (ev : List TrackEvent),
      trackRoundups envPure stC addrW 100 false feedC = (.ok res, st', ev)
      ∧ res.processed = 3
      ∧ res.stored + res.skipped = res.processed
      ∧ ([p3C, p2C, p1C].filter
          (fun x => getTokenPrice envPure x.token x.tokenMint = 0)).length ≤
          res.skipped
      ∧ res.newBaseline = "T3"
      ∧ getWalletTracking st'.walletTracking addrW = some (some "T3") := by
  obtain ⟨res, st', ev, h₁, h₂, h₃, h₄, h₅, h₆⟩ :=
    trackRoundups_skip_without_stall.1 envPure stC addrW "T0" 100 feedC p3C
      [p2C, p1C] (by decide) rfl fetchOutgoing_feedC
  exact ⟨res, st', ev, h₁, h₂, h₃, h₄, h₅, h₆⟩


/-! ### C9 — persistence errors other than duplicates -/

/-- Middle batch transaction for the C9 scenario: $10.50 USDC sent by the
wallet (signature T2), perfectly priceable. -/
def h2E : HeliusTransaction :=
  { signature := "T2", slot := 102, timestamp := 2, fee := 5000
    nativeTransfers := []
    tokenTransfers := [{ fromUserAccount := addrW, toUserAccount := "merchantB"
                         tokenAmount := 21/2, mint := mintU }] }

/-- Parse of `h2E` for the wallet. -/
def p2E : ParsedHeliusTransaction :=
  { signature := "T2", timestamp := 2, slot := 102
    fee := ((5000 : Int) : Rat) / 1000000000, type := .sent, amount := 21/2
    token := "USDC", tokenMint := some mintU, tokenDecimals := 6
    fromAddress := addrW, toAddress := "merchantB" }

/-- The round-up calculation produced for `p2E`. -/
def calc2E : RoundupCalculation :=
  { transaction_id := "T2", transaction_date := 2000
    token := "USDC", token_mint := some mintU, token_amount := 21/2
    usd_value := round2 (21/2 * 1)
    round_up_value := round2 (calculateRoundup (21/2 * 1))
    price_source := "coingecko" }

/-- The C9 feed: three priceable USDC transfers above the baseline. -/
def feed9 : List HeliusTransaction := [h3C, h2E, h1C, h0C]

/-- The C9 environment: the insert of transaction T2's entry raises a
non-duplicate persistence error. -/
def env9 : Env :=
  { solPrice := 0
    tokenPrice := fun _ => 0
    insertFault := fun s => s = "T2"
    readFault := false }

/-- **Counterexample to C9 as stated.**  The claim says a persistence error
other than a duplicate-key violation while recording an entry is propagated
to the caller as fatal for the `TrackRoundups` operation, the batch not
continuing past it.  In this concrete run the insert of T2's entry (priced,
not a duplicate) raises such an error, yet the operation succeeds with
`processed = 3, stored = 2, skipped = 1`, and the batch continued past T2:
T1, processed after the failure, is durably recorded. -/
theorem trackRoundups_insert_error_cex :
    (trackRoundups env9 stC addrW 100 false feed9).1 =
      .ok { processed := 3, stored := 2, skipped := 1
            totalRoundup := 35/100, newBaseline := "T3"
            isReadyForInvestment := some false, mode := some "incremental" }
    ∧ ((trackRoundups env9 stC addrW 100 false feed9).2.1.roundupRecords.map
        (fun r => r.transaction_id)) = ["T3", "T1"] := by
  have hfetch9 : fetchOutgoingTransactions addrW 100 (some "T0") feed9 =
      [p3C, p2E, p1C] := rfl
  have hpas9 : processAndStore env9 addrW [p3C, p2E, p1C] [] =
      (2, 1, [recordOf addrW calc3C, recordOf addrW calc1C]) := rfl
  rw [trackRoundups_run_eq env9 stC addrW "T0" 100 feed9 p3C [p2E, p1C]
    (by decide) rfl hfetch9]
  have hdec : (decide ((1 : Rat) ≤ 35/100)) = false := by
    rw [decide_eq_false_iff_not]
    norm_num
  have hsig : p3C.signature = "T3" := rfl
  simp only [hsig, stC, hpas9, getTotalRoundup_ledgerC env9 rfl, hdec,
    List.map_cons, List.map_nil, List.length_cons, List.length_nil]
  simp [recordOf, calc3C, calc1C]

/-- **C9 (amended).**  A persistence error other than a duplicate-key
violation raised while recording a transfer's round-up entry is caught
inside the per-transfer loop of `processAndStoreTransactions`: the failing
transfer is counted as skipped, its entry is not recorded, and the batch
continues — every remaining transfer is still processed, every transfer is
accounted as stored or skipped, and the `TrackRoundups` operation itself
still succeeds rather than failing. -/
theorem storeRoundup_error_contained :
    (∀ (env : Env) (walletAddress : String) (t : ParsedHeliusTransaction)
        (rest : List ParsedHeliusTransaction) (ledger : List RoundupRecord)
        (calculation : RoundupCalculation),
      processTransaction env t = some calculation →
      ledger.any (fun e => e.transaction_id = calculation.transaction_id) =
        false →
      env.insertFault calculation.transaction_id = true →
      processAndStore env walletAddress (t :: rest) ledger =
        ((processAndStore env walletAddress rest ledger).1,
         (processAndStore env walletAddress rest ledger).2.1 + 1,
         (processAndStore env walletAddress rest ledger).2.2))
    ∧ (∀ (env : Env) (walletAddress : String)
        (txs : List ParsedHeliusTransaction) (ledger : List RoundupRecord),
      (processAndStore env walletAddress txs ledger).1 +
        (processAndStore env walletAddress txs ledger).2.1 = txs.length)
    ∧ (∀ (env : Env) (st : DbState) (address lastTx : String) (limit : Nat)
        (feed : List HeliusTransaction) (t : ParsedHeliusTransaction)
        (ts : List ParsedHeliusTransaction),
      address ≠ "" →
      getWalletTracking st.walletTracking address = some (some lastTx) →
      fetchOutgoingTransactions address limit (some lastTx) feed = t :: ts →
      ∃ (res : TrackResult) (st' : DbState) (ev : List TrackEvent),
        trackRoundups env st address limit false feed =
          (.ok res, st', ev)) := by
  refine ⟨?_, processAndStore_sum, ?_⟩
  · intro env walletAddress t rest ledger calculation hp hdup hfault
    have hrec : (recordOf walletAddress calculation).transaction_id =
        calculation.transaction_id := rfl
    simp only [processAndStore, hp, storeRoundup, dbInsertRoundup, hrec,
      hdup, hfault]
    simp
  · intro env st address lastTx limit feed t ts hne hinit hfetch
    exact ⟨_, _, _,
      trackRoundups_run_eq env st address lastTx limit feed t ts hne hinit
        hfetch⟩

/-- Witness for the amended C9: in the concrete C9 run, T2's failing insert
adds exactly one skip, leaves the ledger unchanged at that step, and the
overall tracking run returns a success. -/
theorem storeRoundup_error_contained_witness :
    processAndStore env9 addrW (p2E :: [p1C]) [recordOf addrW calc3C] =
      ((processAndStore env9 addrW [p1C] [recordOf addrW calc3C]).1,
       (processAndStore env9 addrW [p1C] [recordOf addrW calc3C]).2.1 + 1,
       (processAndStore env9 addrW [p1C] [recordOf addrW calc3C]).2.2)
    ∧ ∃ (res : TrackResult) (st' : DbState) (ev : List TrackEvent),
        trackRoundups env9 stC addrW 100 false feed9 = (.ok res, st', ev) :=
  ⟨storeRoundup_error_contained.1 env9 addrW p2E [p1C]
      [recordOf addrW calc3C] calc2E rfl (by simp [recordOf, calc3C, calc2E])
      (by simp [env9, calc2E]),
   storeRoundup_error_contained.2.2 env9 stC addrW "T0" 100 feed9 p3C
      [p2E, p1C] (by decide) rfl rfl⟩


/-! ### C7 — wallet total -/

/-- **C7 (amended).** `getTotalRoundup` returns the 2-decimal rounding of the
sum of the round-up amounts of the wallet's most recent (by transaction
date) at most 1000 stored entries; whenever the wallet has at most 1000
entries this equals the sum over all of its entries. -/
theorem getTotalRoundup_cap (env : Env) (ledger : List RoundupRecord)
    (walletAddress : String) (hf : env.readFault = false) :
    getTotalRoundup env ledger walletAddress =
      round2 (((getRoundups ledger walletAddress 1000).map
        (fun r => r.round_up_value)).sum)
    ∧ ((ledger.filter
        (fun r => r.wallet_address = walletAddress)).length ≤ 1000 →
      getTotalRoundup env ledger walletAddress =
        round2 (((ledger.filter
          (fun r => r.wallet_address = walletAddress)).map
            (fun r => r.round_up_value)).sum)) := by
  refine ⟨getTotalRoundup_ok env ledger walletAddress hf, fun hlen => ?_⟩
  rw [getTotalRoundup_ok env ledger walletAddress hf]
  unfold getRoundups
  rw [List.take_of_length_le (by rw [List.length_mergeSort]; exact hlen)]
  have hperm : List.Perm
      (((ledger.filter
        (fun r => r.wallet_address = walletAddress)).mergeSort dateDesc).map
          (fun r => r.round_up_value))
      ((ledger.filter (fun r => r.wallet_address = walletAddress)).map
        (fun r => r.round_up_value)) :=
    (List.mergeSort_perm _ dateDesc).map _
  rw [hperm.sum_eq]

/-- A synthetic ledger row: round-up 50¢, transaction dates strictly
descending in `i`. -/
def mkRec (i : Nat) : RoundupRecord :=
  { wallet_address := "walletW", transaction_id := "t"
    transaction_date := -(i : Int), token := "USDC", token_mint := none
    token_amount := 1/2, usd_value := 1/2
    round_up_value := 1/2, price_source := "coingecko" }

/-- A wallet with 1001 stored entries of 50¢ each. -/
def bigLedger : List RoundupRecord := (List.range 1001).map mkRec

/-- Summing the 50¢ round-ups of `n` synthetic rows gives `n/2` dollars. -/
theorem sum_mkRec_half :
    ∀ l : List Nat,
      ((l.map mkRec).map (fun r => r.round_up_value)).sum =
        (l.length : Rat) / 2
  | [] => by simp
  | i :: rest => by
    have ih := sum_mkRec_half rest
    simp only [List.map_cons, List.sum_cons, ih, List.length_cons, mkRec]
    push_cast
    ring

/-- `bigLedger` is entirely the wallet's and already sorted newest-first. -/
theorem bigLedger_filter_sorted :
    bigLedger.filter (fun r => r.wallet_address = "walletW") = bigLedger
    ∧ bigLedger.Pairwise (fun a b => dateDesc a b = true) := by
  constructor
  · rw [List.filter_eq_self]
    intro r hr
    obtain ⟨i, _, rfl⟩ := List.mem_map.mp hr
    simp [mkRec]
  · rw [bigLedger, List.pairwise_map]
    refine (List.pairwise_lt_range 1001).imp ?_
    intro a b hab
    simp only [dateDesc, mkRec, decide_eq_true_eq]
    omega

/-- **Counterexample to C7 as stated.**  The claim says `getTotalRoundup`
returns the rounded sum of *all* of the wallet's round-up amounts regardless
of how many entries exist.  On a wallet with 1001 entries of 50¢ each, the
code fetches only the 1000 most recent records and reports $500.00, while
the sum over all entries is $500.50. -/
theorem getTotalRoundup_cap_cex :
    getTotalRoundup envPure bigLedger "walletW" = 500
    ∧ round2 (((bigLedger.filter
        (fun r => r.wallet_address = "walletW")).map
          (fun r => r.round_up_value)).sum) = 1001/2
    ∧ (500 : Rat) ≠ 1001/2 := by
  obtain ⟨hfilter, hsorted⟩ := bigLedger_filter_sorted
  have htake : (bigLedger.take 1000) = (List.range 1000).map mkRec := by
    rw [bigLedger, ← List.map_take, List.take_range]
    norm_num
  have hsum1000 : ((bigLedger.take 1000).map
      (fun r => r.round_up_value)).sum = 500 := by
    rw [htake, sum_mkRec_half]
    norm_num
  have hsumAll : (bigLedger.map (fun r => r.round_up_value)).sum = 1001/2 := by
    rw [bigLedger, sum_mkRec_half]
    norm_num
  refine ⟨?_, ?_, by norm_num⟩
  · rw [getTotalRoundup_ok envPure bigLedger "walletW" rfl]
    unfold getRoundups
    rw [hfilter, List.mergeSort_of_sorted hsorted, hsum1000,
      round2_intMul 500 50000 (by norm_num)]
    norm_num
  · rw [hfilter, hsumAll, round2_intMul (1001/2) 50050 (by norm_num)]
    norm_num

/-- Witness for the amended C7 at a concrete input: on a wallet with two
entries (≤ 1000), the reported total is the rounded sum over all entries. -/
theorem getTotalRoundup_cap_witness :
    envPure.readFault = false
    ∧ (ledgerOneDollar.filter
        (fun r => r.wallet_address = "walletW")).length ≤ 1000
    ∧ getTotalRoundup envPure ledgerOneDollar "walletW" =
        round2 (((ledgerOneDollar.filter
          (fun r => r.wallet_address = "walletW")).map
            (fun r => r.round_up_value)).sum) :=
  ⟨rfl, by decide,
   (getTotalRoundup_cap envPure ledgerOneDollar "walletW" rfl).2 (by decide)⟩


/-! ### C5 — the transaction source -/

/-- `parseTransaction` only ever returns `'sent'`-classified transactions. -/
theorem parseTransaction_sent (tx : HeliusTransaction) (walletAddress : String)
    (p : ParsedHeliusTransaction)
    (h : parseTransaction tx walletAddress = some p) : p.type = .sent := by
  simp only [parseTransaction] at h
  split at h
  · exact absurd h (by simp)
  · rename_i hcond
    injection h with h
    subst h
    exact not_not.mp hcond

/-- `takeWhile` through a prefix that contains a failing element ignores the
rest of the list. -/
theorem takeWhile_append_of_any (s : String) :
    ∀ (l₁ l₂ : List HeliusTransaction),
      l₁.any (fun tx => tx.signature = s) = true →
      (l₁ ++ l₂).takeWhile (fun tx => tx.signature ≠ s) =
        l₁.takeWhile (fun tx => tx.signature ≠ s)
  | [], _, h => by simp at h
  | a :: l₁, l₂, h => by
    by_cases ha : a.signature = s
    · simp [List.takeWhile_cons, ha]
    · have h' : l₁.any (fun tx => tx.signature = s) = true := by
        simpa [List.any_cons, ha] using h
      have ih := takeWhile_append_of_any s l₁ l₂ h'
      simp only [decide_not] at ih
      simp [List.takeWhile_cons, ha, ih]

/-- `takeWhile` passes through a prefix all of whose elements succeed. -/
theorem takeWhile_append_of_all (s : String) :
    ∀ (l₁ l₂ : List HeliusTransaction),
      l₁.any (fun tx => tx.signature = s) = false →
      (l₁ ++ l₂).takeWhile (fun tx => tx.signature ≠ s) =
        l₁ ++ l₂.takeWhile (fun tx => tx.signature ≠ s)
  | [], _, _ => by simp
  | a :: l₁, l₂, h => by
    have ha : ¬(a.signature = s) := by
      intro ha
      simp [List.any_cons, ha] at h
    have h' : l₁.any (fun tx => tx.signature = s) = false := by
      simpa [List.any_cons, ha] using h
    have ih := takeWhile_append_of_all s l₁ l₂ h'
    simp only [decide_not] at ih
    simp [List.takeWhile_cons, ha, ih]

/-- The inner page loop, entered with the baseline not yet found: it pushes
the parses of the page elements before the baseline signature and reports
whether the baseline signature occurs in the page. -/
theorem processPage_spec (walletAddress s : String) :
    ∀ (page : List HeliusTransaction) (acc : List ParsedHeliusTransaction),
      processPage walletAddress (some s) page acc false =
        (acc ++ (page.takeWhile (fun tx => tx.signature ≠ s)).filterMap
          (fun tx => parseTransaction tx walletAddress),
         page.any (fun tx => tx.signature = s))
  | [], acc => by simp [processPage]
  | tx :: rest, acc => by
    by_cases hsig : tx.signature = s
    · simp [processPage, hsig, List.takeWhile_cons, List.any_cons]
    · have hco : ¬(some s = some tx.signature) := by
        simpa [eq_comm] using hsig
      cases hp : parseTransaction tx walletAddress with
      | none =>
        have ih := processPage_spec walletAddress s rest acc
        simp only [decide_not] at ih
        simp [processPage, hco, hp, List.takeWhile_cons, List.any_cons, hsig,
          ih]
      | some p =>
        have hsent := parseTransaction_sent tx walletAddress p hp
        have ih := processPage_spec walletAddress s rest (acc ++ [p])
        simp only [decide_not] at ih
        simp [processPage, hco, hp, hsent, List.takeWhile_cons, List.any_cons,
          hsig, ih]


/-- A list is its prefix `take n` followed by the elements dropped past that
prefix's length. -/
theorem take_append_drop_length (l : List HeliusTransaction) (n : Nat) :
    l.take n ++ l.drop (l.take n).length = l := by
  by_cases h : n ≤ l.length
  · rw [List.length_take, Nat.min_eq_left h, List.take_append_drop]
  · push_neg at h
    rw [List.take_of_length_le (le_of_lt h), List.drop_length, List.append_nil]

/-- The pagination loop, entered with the baseline not yet found and with
fuel covering the remaining feed: it collects the parses of the remaining
transactions strictly newer than the baseline signature, truncated to the
remaining capacity. -/
theorem fetchOutgoingGo_spec (walletAddress s : String) (limit : Nat) :
    ∀ (fuel : Nat) (remaining : List HeliusTransaction)
      (acc : List ParsedHeliusTransaction),
      remaining.length ≤ fuel →
      acc.length ≤ limit →
      fetchOutgoingGo walletAddress (some s) limit fuel remaining acc false =
        acc ++ ((remaining.takeWhile (fun tx => tx.signature ≠ s)).filterMap
          (fun tx => parseTransaction tx walletAddress)).take
            (limit - acc.length)
  | 0, remaining, acc, hfuel, hacc => by
    have hnil : remaining = [] :=
      List.eq_nil_of_length_eq_zero (Nat.le_zero.mp hfuel)
    subst hnil
    simp [fetchOutgoingGo]
  | fuel + 1, remaining, acc, hfuel, hacc => by
    by_cases hlt : acc.length < limit
    case neg =>
      have hlim : limit - acc.length = 0 := by omega
      simp [fetchOutgoingGo, hlt, hlim]
    case pos =>
      cases hrem : remaining with
      | nil => simp [fetchOutgoingGo, hlt]
      | cons r rem =>
        subst hrem
        have hk1 : 1 ≤ min 100 (limit - acc.length) := by omega
        have hpage : ((r :: rem).take (min 100 (limit - acc.length))).isEmpty
            = false := by
          cases hmin : min 100 (limit - acc.length) with
          | zero => omega
          | succ a => simp
        have hstep := processPage_spec walletAddress s
          ((r :: rem).take (min 100 (limit - acc.length))) acc
        have hAlen :
            ((((r :: rem).take (min 100 (limit - acc.length))).takeWhile
              (fun tx => tx.signature ≠ s)).filterMap
                (fun tx => parseTransaction tx walletAddress)).length ≤
              limit - acc.length := by
          calc ((((r :: rem).take (min 100 (limit - acc.length))).takeWhile
                (fun tx => tx.signature ≠ s)).filterMap
                  (fun tx => parseTransaction tx walletAddress)).length
              ≤ (((r :: rem).take (min 100 (limit - acc.length))).takeWhile
                (fun tx => tx.signature ≠ s)).length :=
                List.length_filterMap_le _ _
            _ ≤ ((r :: rem).take (min 100 (limit - acc.length))).length :=
                (List.takeWhile_sublist _).length_le
            _ ≤ min 100 (limit - acc.length) := by
                rw [List.length_take]
                omega
            _ ≤ limit - acc.length := Nat.min_le_right _ _
        cases hb : ((r :: rem).take (min 100 (limit - acc.length))).any
            (fun tx => tx.signature = s) with
        | true =>
          have hLHS : fetchOutgoingGo walletAddress (some s) limit (fuel + 1)
              (r :: rem) acc false =
              acc ++ (((r :: rem).take
                (min 100 (limit - acc.length))).takeWhile
                  (fun tx => tx.signature ≠ s)).filterMap
                    (fun tx => parseTransaction tx walletAddress) := by
            simp only [fetchOutgoingGo, hlt, if_true, hpage,
              Bool.false_eq_true, if_false, hstep, hb]
          rw [hLHS]
          congr 1
          conv_rhs =>
            rw [← take_append_drop_length (r :: rem)
                (min 100 (limit - acc.length)),
              takeWhile_append_of_any s _ _ hb]
          exact (List.take_of_length_le hAlen).symm
        | false =>
          have hdroplen : (((r :: rem).drop
              (((r :: rem).take (min 100 (limit - acc.length))).length)).length)
              ≤ fuel := by
            rw [List.length_drop, List.length_take]
            simp only [List.length_cons] at hfuel ⊢
            omega
          have hacclen :
              (acc ++ (((r :: rem).take
                (min 100 (limit - acc.length))).takeWhile
                  (fun tx => tx.signature ≠ s)).filterMap
                    (fun tx => parseTransaction tx walletAddress)).length ≤
                limit := by
            rw [List.length_append]
            omega
          have ih := fetchOutgoingGo_spec walletAddress s limit fuel
            ((r :: rem).drop
              (((r :: rem).take (min 100 (limit - acc.length))).length))
            (acc ++ (((r :: rem).take
              (min 100 (limit - acc.length))).takeWhile
                (fun tx => tx.signature ≠ s)).filterMap
                  (fun tx => parseTransaction tx walletAddress))
            hdroplen hacclen
          have hLHS : fetchOutgoingGo walletAddress (some s) limit (fuel + 1)
              (r :: rem) acc false =
              fetchOutgoingGo walletAddress (some s) limit fuel
                ((r :: rem).drop
                  (((r :: rem).take (min 100 (limit - acc.length))).length))
                (acc ++ (((r :: rem).take
                  (min 100 (limit - acc.length))).takeWhile
                    (fun tx => tx.signature ≠ s)).filterMap
                      (fun tx => parseTransaction tx walletAddress))
                false := by
            simp only [fetchOutgoingGo, hlt, if_true, hpage,
              Bool.false_eq_true, if_false, hstep, hb]
          have hall : (((r :: rem).take
              (min 100 (limit - acc.length))).takeWhile
                (fun tx => tx.signature ≠ s)) =
              ((r :: rem).take (min 100 (limit - acc.length))) := by
            have h0 := takeWhile_append_of_all s
              ((r :: rem).take (min 100 (limit - acc.length))) [] hb
            simpa using h0
          rw [hLHS, ih, List.append_assoc]
          congr 1
          rw [hall] at hAlen ⊢
          conv_rhs =>
            rw [← take_append_drop_length (r :: rem)
                (min 100 (limit - acc.length)),
              takeWhile_append_of_all s _ _ hb, List.filterMap_append]
          rw [List.take_append_eq_append_take]
          rw [List.take_of_length_le hAlen]
          congr 2
          rw [List.length_append]
          omega


/-- **C5 (amended).**  With a baseline signature `s` given,
`fetchOutgoingTransactions` returns exactly the `'sent'`-classified parses of
the feed transactions strictly newer than the transaction matching `s` (the
matching transaction itself and everything older is excluded), truncated to
`limit`; every returned transfer is classified as sent — purely-incoming
transfers are never returned — but self-transfers, in which the wallet is
both sender and receiver, are classified as sent and are returned. -/
theorem fetchOutgoing_characterization :
    ∀ (walletAddress : String) (limit : Nat) (s : String)
      (feed : List HeliusTransaction),
      fetchOutgoingTransactions walletAddress limit (some s) feed =
        ((feed.takeWhile (fun tx => tx.signature ≠ s)).filterMap
          (fun tx => parseTransaction tx walletAddress)).take limit
      ∧ ∀ p ∈ fetchOutgoingTransactions walletAddress limit (some s) feed,
          p.type = .sent := by
  intro walletAddress limit s feed
  have h := fetchOutgoingGo_spec walletAddress s limit feed.length feed []
    (le_refl _) (Nat.zero_le _)
  have hchar : fetchOutgoingTransactions walletAddress limit (some s) feed =
      ((feed.takeWhile (fun tx => tx.signature ≠ s)).filterMap
        (fun tx => parseTransaction tx walletAddress)).take limit := by
    simpa [fetchOutgoingTransactions] using h
  refine ⟨hchar, ?_⟩
  intro p hp
  rw [hchar] at hp
  obtain ⟨tx, _, hparse⟩ := List.mem_filterMap.mp (List.mem_of_mem_take hp)
  exact parseTransaction_sent tx walletAddress p hparse

/-- A native self-transfer: the wallet sends 2 SOL to itself (signature S1). -/
def hSelf : HeliusTransaction :=
  { signature := "S1", slot := 2, timestamp := 2, fee := 5000
    nativeTransfers := [{ fromUserAccount := addrW, toUserAccount := addrW
                          amount := 2000000000 }]
    tokenTransfers := [] }

/-- The baseline transaction of the self-transfer scenario (signature B0). -/
def hBase : HeliusTransaction :=
  { signature := "B0", slot := 1, timestamp := 1, fee := 5000
    nativeTransfers := [{ fromUserAccount := addrW, toUserAccount := "other0"
                          amount := 1000000000 }]
    tokenTransfers := [] }

/-- **Counterexample to C5 as stated.**  The claim says
`fetchOutgoingTransactions` never returns self-transfers, where the wallet is
both sender and receiver.  On a feed containing a native transfer from the
wallet to itself above the baseline, the transfer is classified as sent and
returned: the single result has the wallet as both `fromAddress` and
`toAddress`. -/
theorem fetchOutgoing_self_transfer_cex :
    (fetchOutgoingTransactions addrW 10 (some "B0") [hSelf, hBase]).map
      (fun p => (p.fromAddress, p.toAddress, p.signature)) =
      [(addrW, addrW, "S1")] := rfl

